import Mathlib

/-!
Shallow embedding of the `apps-helper` record store and fuzzy-matching
lookup layer (Rust, `src/main.rs`), together with theorems settling the
specification claims about it.

Modelling conventions:
* `PathBuf` is modelled as `String` (paths are only constructed and
  compared for equality in the embedded code).
* The backing `HashMap<String, App>` is modelled as an association list
  `List (String × App)` with a fixed (but arbitrary) iteration order;
  hash-map key uniqueness is the `Nodup` hypothesis on the key list.
* Rust functions that take `&mut App` and return `Result<()>` are
  embedded as `App → ... → App × Option ProfErr`: the first component is
  the state of the record after the call (also on the error path, since
  the Rust code can mutate before failing), the second the returned error.
* `chrono::Utc::now()`, the current directory and the machine name are
  external inputs; they are passed as explicit parameters.
* Rust `char::is_alphanumeric` / `str::to_lowercase` are Unicode
  functions; they are modelled on a fragment of Unicode that is faithful
  on the basic-latin range and on the two code points U+0130 / U+0307,
  where the lowercasing of one character expands to two — the behavior
  that makes the source's normalization non-idempotent. Characters
  outside the fragment are treated as non-alphanumeric and fixed by
  lowercasing (see `rust_is_alphanumeric`, `rust_char_to_lowercase`).
-/

namespace AppsHelper

/-- The `ProfileType` enum from the source (`Dev`, `Installed`, `Binary`, `Config`). -/
inductive ProfileType where
  | Dev
  | Installed
  | Binary
  | Config
deriving DecidableEq, Repr

/-- The `AppProfile` record from the source. -/
structure AppProfile where
  profile_type : ProfileType
  location : String
  machine_name : Option String
  notes : Option String
  active : Bool
deriving DecidableEq, Repr

/-- The `App` record from the source; `directory` is the legacy migration field. -/
structure App where
  name : String
  profiles : List AppProfile
  directory : Option String
  tags : List String
  github_repo : Option String
  created_at : String
  updated_at : String
deriving DecidableEq, Repr

/-- The `apps` map of `AppsData`, as an association list in iteration order. -/
abbrev Store := List (String × App)

/-- Errors raised by the profile operations. -/
inductive ProfErr where
  | DuplicateProfileType
  | ProfileTypeNotFound
deriving DecidableEq, Repr

/-- Errors raised by the store-level `add_app` operation. -/
inductive StoreErr where
  | NameRequired
  | DuplicateName
deriving DecidableEq, Repr

/-- LATIN CAPITAL LETTER I WITH DOT ABOVE (U+0130): alphabetic, and the one
character of the modelled fragment whose Unicode lowercasing expands to two
characters (`SpecialCasing.txt`: U+0130 → U+0069 U+0307). -/
def latinCapitalIWithDotAbove : Char := Char.ofNat 0x130

/-- COMBINING DOT ABOVE (U+0307): a combining mark (category Mn), hence not
alphanumeric; produced by lowercasing U+0130. -/
def combiningDotAbove : Char := Char.ofNat 0x307

/-- Rust `char::is_alphanumeric` (Unicode Alphabetic or Nd/Nl/No), on the
modelled fragment of Unicode: the function is faithful on the basic-latin
range, on U+0130 (alphabetic) and on U+0307 (a combining mark, not
alphanumeric); other non-ASCII characters are outside the fragment and
treated as not alphanumeric. -/
def rust_is_alphanumeric (c : Char) : Bool :=
  c.isAlphanum || c == latinCapitalIWithDotAbove

/-- Rust `char::to_lowercase` for one character (full Unicode lowercasing,
which may expand one character to several), on the modelled fragment:
faithful on the basic-latin range (where it is `Char.toLower`) and on
U+0130 (which expands to U+0069 U+0307) and U+0307 (which maps to itself);
other non-ASCII characters are outside the fragment and map to themselves. -/
def rust_char_to_lowercase (c : Char) : List Char :=
  if c == latinCapitalIWithDotAbove then ['i', combiningDotAbove]
  else [Char.toLower c]

/-- Rust `str::to_lowercase`: concatenation of the per-character Unicode
lowercasings (the context-sensitive final-sigma rule lies outside the
modelled fragment). -/
def rust_str_to_lowercase (l : List Char) : List Char :=
  (l.map rust_char_to_lowercase).flatten

/-- Function `normalize_name` from the source: keep only alphanumeric
characters (`char::is_alphanumeric`), then lower-case the collected string
(`str::to_lowercase`). -/
def normalize_name (name : String) : String :=
  (rust_str_to_lowercase (name.data.filter rust_is_alphanumeric)).asString

/-- Function `add_profile` from the source. Fails with `DuplicateProfileType` when a
profile of `profile_type` already exists, otherwise appends a new profile
whose `active` flag is set exactly when the profile list was empty. -/
def add_profile (app : App) (profile_type : ProfileType) (location : String)
    (machine : Option String) (notes : Option String) (now : String) :
    App × Option ProfErr :=
  if app.profiles.any (fun p => p.profile_type == profile_type) then
    (app, some ProfErr.DuplicateProfileType)
  else
    let is_first_profile := app.profiles.isEmpty
    ({ app with
        profiles := app.profiles ++
          [{ profile_type := profile_type, location := location,
             machine_name := machine, notes := notes,
             active := is_first_profile }],
        updated_at := now }, none)

/-- Function `activate_profile` from the source. The Rust loop rewrites every
profile's `active` flag (`true` on the matching type, `false` elsewhere)
and only afterwards checks whether a profile of `profile_type` was found;
on failure the rewritten flags are kept but `updated_at` is not touched. -/
def activate_profile (app : App) (profile_type : ProfileType) (now : String) :
    App × Option ProfErr :=
  let profiles := app.profiles.map (fun p =>
    if p.profile_type == profile_type then { p with active := true }
    else { p with active := false })
  let found := app.profiles.any (fun p => p.profile_type == profile_type)
  if found then
    ({ app with profiles := profiles, updated_at := now }, none)
  else
    ({ app with profiles := profiles }, some ProfErr.ProfileTypeNotFound)

/-- Function `remove_profile` from the source: `retain` drops the profiles of the
given type; if nothing was dropped the operation fails, otherwise the
first remaining profile is re-activated when none is active. -/
def remove_profile (app : App) (profile_type : ProfileType) (now : String) :
    App × Option ProfErr :=
  let remaining := app.profiles.filter (fun p => !(p.profile_type == profile_type))
  if remaining.length == app.profiles.length then
    (app, some ProfErr.ProfileTypeNotFound)
  else
    let profiles :=
      if !remaining.isEmpty && !remaining.any (fun p => p.active) then
        match remaining with
        | [] => []
        | p :: rest => { p with active := true } :: rest
      else remaining
    ({ app with profiles := profiles, updated_at := now }, none)

/-- The legacy-directory migration `load_data` applies to one record:
when `profiles` is empty and the legacy `directory` field is present, a
single active `Dev` profile at that directory is synthesized. -/
def migrate_app (app : App) : App :=
  match app.directory with
  | some d =>
      if app.profiles.isEmpty then
        { app with
            profiles := [{ profile_type := ProfileType.Dev, location := d,
                           machine_name := none, notes := none, active := true }] }
      else app
  | none => app

/-- The load-time migration applied by `load_data` to every record. -/
def migrate_store (store : Store) : Store :=
  store.map (fun p => (p.1, migrate_app p.2))

/-- The tag-splitting step of `add_app`: split on commas and trim. -/
def split_tags (tags : Option String) : List String :=
  match tags with
  | some t => (t.splitOn ",").map String.trim
  | none => []

/-- The name-resolution step of `add_app`: an explicit name wins, else the
basename of the current directory (falling back to `"unknown"`) when
`--current-dir` was given, else the operation fails with `NameRequired`. -/
def resolve_app_name (name : Option String) (use_current_dir : Bool)
    (cwd_basename : Option String) : Except StoreErr String :=
  match name with
  | some n => Except.ok n
  | none =>
      if use_current_dir then Except.ok (cwd_basename.getD "unknown")
      else Except.error StoreErr.NameRequired

/-- The `App` record `add_app` builds: when a directory is present one
active `Dev` profile is created for it, and the directory is also kept in
the legacy `directory` field ("for legacy compatibility" in the source). -/
def new_app_record (app_name : String) (directory : Option String)
    (tag_list : List String) (machine_name : Option String) (now : String) : App :=
  { name := app_name,
    profiles :=
      match directory with
      | some d => [{ profile_type := ProfileType.Dev, location := d,
                     machine_name := machine_name, notes := none,
                     active := true }]
      | none => [],
    directory := directory,
    tags := tag_list, github_repo := none,
    created_at := now, updated_at := now }

/-- Function `add_app` from the source, after the external inputs (current
directory, its basename, machine name, clock) have been resolved. The
duplicate-name check is the Rust `contains_key`: exact, case-sensitive
string equality on the key. -/
def add_app (store : Store) (name : Option String) (dir : Option String)
    (tags : Option String) (use_current_dir : Bool) (cwd_path : Option String)
    (cwd_basename : Option String) (machine_name : Option String)
    (now : String) : Except StoreErr Store :=
  let tag_list := split_tags tags
  let directory := if use_current_dir then cwd_path else dir
  match resolve_app_name name use_current_dir cwd_basename with
  | Except.error e => Except.error e
  | Except.ok app_name =>
      if store.any (fun p => p.1 == app_name) then
        Except.error StoreErr.DuplicateName
      else
        Except.ok (store ++
          [(app_name, new_app_record app_name directory tag_list machine_name now)])

/-- Rust `str::to_lowercase` on `String` — the same Unicode-fragment
model `rust_str_to_lowercase` used by `normalize_name`, since the source
calls the one standard-library function in both places. -/
def string_to_lower (s : String) : String :=
  (rust_str_to_lowercase s.data).asString

/-- Rust `str::contains`: `sub` occurs as a contiguous substring of `s`. -/
def string_contains (s sub : String) : Bool :=
  decide (sub.data <:+: s.data)

/-- Tier 1 of the matcher, as a predicate on a stored key: the key
lower-cases to the (already lower-cased) search term. -/
def tier1 (search_lower : String) (name : String) : Bool :=
  string_to_lower name == search_lower

/-- Tier 2 of the matcher: normalized key equals the normalized search. -/
def tier2 (normalized_search : String) (name : String) : Bool :=
  normalize_name (string_to_lower name) == normalized_search

/-- Tier 3 of the matcher: normalized containment in either direction. -/
def tier3 (normalized_search : String) (name : String) : Bool :=
  string_contains (normalize_name (string_to_lower name)) normalized_search ||
    string_contains normalized_search (normalize_name (string_to_lower name))

/-- Function `find_app_by_name` from the source: three scans over the `(key, app)`
pairs in iteration order — exact case-insensitive match, then normalized
equality, then normalized containment — first hit wins. -/
def find_app_by_name (store : Store) (search_term : String) : Option App :=
  let search_lower := string_to_lower search_term
  match store.find? (fun p => tier1 search_lower p.1) with
  | some p => some p.2
  | none =>
      let normalized_search := normalize_name search_lower
      match store.find? (fun p => tier2 normalized_search p.1) with
      | some p => some p.2
      | none =>
          match store.find? (fun p => tier3 normalized_search p.1) with
          | some p => some p.2
          | none => none

/-- Operation `HashMap::get_mut` on the association-list model: the value of the
first pair whose key is the given one. -/
def hashmap_get (store : Store) (name : String) : Option App :=
  (store.find? (fun p => p.1 == name)).map Prod.snd

/-- Function `find_app_by_name_mut` from the source: it first collects the key
list, runs the same three tiers over the keys, and fetches the winning
key back out of the map with `get_mut`. -/
def find_app_by_name_mut (store : Store) (search_term : String) : Option App :=
  let search_lower := string_to_lower search_term
  let keys := store.map Prod.fst
  match keys.find? (tier1 search_lower) with
  | some n => hashmap_get store n
  | none =>
      let normalized_search := normalize_name search_lower
      match keys.find? (tier2 normalized_search) with
      | some n => hashmap_get store n
      | none =>
          match keys.find? (tier3 normalized_search) with
          | some n => hashmap_get store n
          | none => none

/-! ## Character-level lemmas about the normalization alphabet -/

/-- Packing a valid code point and unpacking it round-trips. -/
theorem toNat_ofNat_valid (n : Nat) (h : n.isValidChar) : (Char.ofNat n).toNat = n := by
  simp [Char.ofNat, h, Char.ofNatAux, Char.toNat, UInt32.toNat, BitVec.toNat_ofNatLt]

/-- Unfolding of `Char.toLower` as a conditional on the code point. -/
theorem toLower_eq (c : Char) :
    Char.toLower c =
      if 65 ≤ c.toNat ∧ c.toNat ≤ 90 then Char.ofNat (c.toNat + 32) else c := rfl

/-- Code point of `Char.toLower`. -/
theorem toNat_toLower (c : Char) :
    (Char.toLower c).toNat =
      if 65 ≤ c.toNat ∧ c.toNat ≤ 90 then c.toNat + 32 else c.toNat := by
  rw [toLower_eq]
  split
  · rename_i h
    exact toNat_ofNat_valid _ (Or.inl (by omega))
  · rfl

/-- Lower-casing a character twice is the same as doing it once. -/
theorem char_toLower_idem (c : Char) : Char.toLower (Char.toLower c) = Char.toLower c := by
  by_cases h : 65 ≤ c.toNat ∧ c.toNat ≤ 90
  · rw [toLower_eq c, if_pos h, toLower_eq, toNat_ofNat_valid _ (Or.inl (by omega)),
      if_neg (by omega)]
  · rw [toLower_eq c, if_neg h, toLower_eq c, if_neg h]

/-- Characterization of `Char.isAlphanum` by code-point ranges. -/
theorem isAlphanum_iff (c : Char) : c.isAlphanum = true ↔
    (48 ≤ c.toNat ∧ c.toNat ≤ 57) ∨ (65 ≤ c.toNat ∧ c.toNat ≤ 90) ∨
      (97 ≤ c.toNat ∧ c.toNat ≤ 122) := by
  simp [Char.isAlphanum, Char.isAlpha, Char.isUpper, Char.isLower, Char.isDigit,
    UInt32.le_def, BitVec.le_def, Char.toNat, UInt32.toNat]
  omega

/-- Lower-casing keeps alphanumeric characters alphanumeric. -/
theorem char_toLower_isAlphanum (c : Char) (h : c.isAlphanum = true) :
    (Char.toLower c).isAlphanum = true := by
  rw [isAlphanum_iff] at h ⊢
  rw [toNat_toLower]
  split <;> omega

/-- List-level idempotence of the filter-then-lower-case normalization. -/
theorem normalize_chars_idem (l : List Char) :
    (((l.filter Char.isAlphanum).map Char.toLower).filter Char.isAlphanum).map Char.toLower
      = (l.filter Char.isAlphanum).map Char.toLower := by
  induction l with
  | nil => rfl
  | cons c l ih =>
    by_cases hc : c.isAlphanum = true
    · have h2 : (Char.toLower c).isAlphanum = true := char_toLower_isAlphanum c hc
      simp [List.filter_cons, hc, h2, ih, char_toLower_idem]
    · simp [List.filter_cons, hc, ih]

/-- Basic-latin characters are distinct from U+0130. -/
theorem ascii_ne_dotted (c : Char) (h : c.toNat < 128) :
    (c == latinCapitalIWithDotAbove) = false := by
  rw [beq_eq_false_iff_ne]
  intro he
  rw [he] at h
  exact absurd h (by decide)

/-- On basic latin, the fragment model of `char::is_alphanumeric` is
`Char.isAlphanum`. -/
theorem rust_alnum_ascii (c : Char) (h : c.toNat < 128) :
    rust_is_alphanumeric c = c.isAlphanum := by
  unfold rust_is_alphanumeric
  rw [ascii_ne_dotted c h]
  exact Bool.or_false _

/-- On basic latin, the fragment model of `char::to_lowercase` is the
single character `Char.toLower c`. -/
theorem rust_lower_ascii (c : Char) (h : c.toNat < 128) :
    rust_char_to_lowercase c = [Char.toLower c] := by
  unfold rust_char_to_lowercase
  rw [ascii_ne_dotted c h]
  rfl

/-- Lower-casing keeps basic-latin characters basic latin. -/
theorem toLower_ascii (c : Char) (h : c.toNat < 128) :
    (Char.toLower c).toNat < 128 := by
  rw [toNat_toLower]
  split <;> omega

/-- On basic-latin input the Unicode-fragment normalization coincides with
the one-character-per-character filter/lower pipeline. -/
theorem normalize_data_ascii_eq (l : List Char) (h : ∀ c ∈ l, c.toNat < 128) :
    rust_str_to_lowercase (l.filter rust_is_alphanumeric)
      = (l.filter Char.isAlphanum).map Char.toLower := by
  induction l with
  | nil => rfl
  | cons c l ih =>
      have hc := h c (List.mem_cons_self c l)
      have hrest : ∀ x ∈ l, x.toNat < 128 := fun x hx => h x (List.mem_cons_of_mem _ hx)
      rw [List.filter_cons, List.filter_cons, rust_alnum_ascii c hc]
      by_cases ha : c.isAlphanum = true
      · simp only [ha, if_true]
        unfold rust_str_to_lowercase at ih ⊢
        rw [List.map_cons, List.flatten_cons, rust_lower_ascii c hc, ih hrest,
          List.map_cons, List.singleton_append]
      · simp only [ha, Bool.false_eq_true, if_false]
        exact ih hrest

/-- C4 (counterexample): `normalize_name` is not idempotent on full
Unicode input. For the one-character string U+0130 the first pass keeps
the character (it is alphabetic) and lowercasing expands it to
U+0069 U+0307; the second pass drops the combining mark U+0307 (not
alphanumeric), leaving the plain `"i"` — a different string. -/
theorem normalize_name_not_idempotent_cex :
    normalize_name (normalize_name (List.asString [latinCapitalIWithDotAbove]))
      ≠ normalize_name (List.asString [latinCapitalIWithDotAbove]) := by decide

/-- C4 (amended): `normalize_name` is idempotent on every string of
basic-latin characters (code points below 128) — on such strings every
character's lowercasing is a single, still-alphanumeric character, so the
second pass filters nothing and lower-casing is already stable. Over full
Unicode the source is not idempotent (see the counterexample). -/
theorem normalize_name_idem_ascii (s : String) (h : ∀ c ∈ s.data, c.toNat < 128) :
    normalize_name (normalize_name s) = normalize_name s := by
  have hA : ∀ c ∈ (s.data.filter Char.isAlphanum).map Char.toLower, c.toNat < 128 := by
    intro c hc
    rw [List.mem_map] at hc
    obtain ⟨c', hc', rfl⟩ := hc
    exact toLower_ascii c' (h c' (List.mem_filter.mp hc').1)
  unfold normalize_name
  congr 1
  show rust_str_to_lowercase
      ((rust_str_to_lowercase (s.data.filter rust_is_alphanumeric)).filter
        rust_is_alphanumeric)
    = rust_str_to_lowercase (s.data.filter rust_is_alphanumeric)
  rw [normalize_data_ascii_eq s.data h, normalize_data_ascii_eq _ hA]
  exact normalize_chars_idem s.data

/-- C4 (witness): idempotence of the normalization evaluated on a concrete
basic-latin string. -/
theorem normalize_name_idem_ascii_witness :
    normalize_name (normalize_name "My-Project") = normalize_name "My-Project" :=
  normalize_name_idem_ascii "My-Project" (by decide)

/-! ## Concrete sample data used by counterexamples and witnesses -/

/-- A concrete active `Dev` profile. -/
def sampleDevActive : AppProfile :=
  { profile_type := ProfileType.Dev, location := "/home/u/proj",
    machine_name := none, notes := none, active := true }

/-- A concrete application with a single active `Dev` profile. -/
def sampleAppOneDev : App :=
  { name := "proj", profiles := [sampleDevActive], directory := none,
    tags := [], github_repo := none, created_at := "t0", updated_at := "t0" }

/-- A concrete inactive `Binary` profile. -/
def sampleBinaryInactive : AppProfile :=
  { profile_type := ProfileType.Binary, location := "/usr/bin/proj",
    machine_name := none, notes := none, active := false }

/-- A concrete application with an active `Dev` profile and an inactive
`Binary` profile. -/
def sampleAppDevBinary : App :=
  { name := "proj", profiles := [sampleDevActive, sampleBinaryInactive],
    directory := none, tags := [], github_repo := none,
    created_at := "t0", updated_at := "t0" }

/-- A concrete application named `Foo` with no profiles. -/
def appFoo : App :=
  { name := "Foo", profiles := [], directory := none, tags := [],
    github_repo := none, created_at := "t0", updated_at := "t0" }

/-- A concrete application with no profiles and a legacy directory. -/
def appLegacy : App :=
  { name := "legacy", profiles := [], directory := some "/old/dir", tags := [],
    github_repo := none, created_at := "t0", updated_at := "t0" }

/-! ## C1: activate_profile on a missing profile type -/

/-- C1 (counterexample): on an application whose only profile is an active
`Dev` profile, activating the absent `Installed` type fails with
`ProfileTypeNotFound`, yet the `Dev` profile's active flag has been
changed (cleared) by the operation — the Rust loop rewrites the flags
before detecting the failure. -/
theorem activate_profile_failure_mutates_cex :
    (activate_profile sampleAppOneDev ProfileType.Installed "t1").2
        = some ProfErr.ProfileTypeNotFound ∧
      (activate_profile sampleAppOneDev ProfileType.Installed "t1").1.profiles
        ≠ sampleAppOneDev.profiles := by decide

/-- C1 (amended): when `activate_profile` fails with `ProfileTypeNotFound`,
the profile list keeps its length, order and every field except `active`,
`updated_at` and all other application fields are untouched, but every
profile's active flag has been set to `false`. -/
theorem activate_profile_failure_state (app : App) (t : ProfileType) (now : String)
    (h : (activate_profile app t now).2 = some ProfErr.ProfileTypeNotFound) :
    (activate_profile app t now).1 =
      { app with profiles := app.profiles.map (fun p => { p with active := false }) } := by
  by_cases hf : app.profiles.any (fun p => p.profile_type == t) = true
  · simp [activate_profile, hf] at h
  · simp only [Bool.not_eq_true] at hf
    simp only [activate_profile, hf, Bool.false_eq_true, if_false]
    have hall := List.any_eq_false.mp hf
    congr 1
    apply List.map_congr_left
    intro p hp
    have : (p.profile_type == t) = false := by
      simpa using hall p hp
    simp [this]

/-- C1 (witness): the amended statement evaluated on the concrete failing
activation. -/
theorem activate_profile_failure_state_witness :
    (activate_profile sampleAppOneDev ProfileType.Installed "t1").1 =
      { sampleAppOneDev with
          profiles := sampleAppOneDev.profiles.map (fun p => { p with active := false }) } :=
  activate_profile_failure_state sampleAppOneDev ProfileType.Installed "t1" (by decide)

/-! ## C6: add_profile -/

/-- C6: when no profile of the requested type exists, `add_profile` appends
exactly one new profile of that type whose active flag is set exactly when
the profile list was empty, leaving every pre-existing profile (including
its active flag) unchanged; when a profile of the type already exists it
fails with `DuplicateProfileType` and leaves the record unchanged. -/
theorem add_profile_spec (app : App) (t : ProfileType) (loc : String)
    (mach notes : Option String) (now : String) :
    ((∀ p ∈ app.profiles, p.profile_type ≠ t) →
      add_profile app t loc mach notes now =
        ({ app with
            profiles := app.profiles ++
              [{ profile_type := t, location := loc, machine_name := mach,
                 notes := notes, active := app.profiles.isEmpty }],
            updated_at := now }, none)) ∧
    ((∃ p ∈ app.profiles, p.profile_type = t) →
      add_profile app t loc mach notes now = (app, some ProfErr.DuplicateProfileType)) := by
  constructor
  · intro h
    have hf : app.profiles.any (fun p => p.profile_type == t) = false := by
      rw [List.any_eq_false]
      intro p hp
      simpa using h p hp
    simp [add_profile, hf]
  · rintro ⟨p, hp, ht⟩
    have hf : app.profiles.any (fun p => p.profile_type == t) = true := by
      rw [List.any_eq_true]
      exact ⟨p, hp, by simp [ht]⟩
    simp [add_profile, hf]

/-- C6 (witness): both branches of the `add_profile` specification applied
to a concrete application. -/
theorem add_profile_spec_witness :
    (add_profile sampleAppOneDev ProfileType.Binary "/bin/x" none none "t1" =
      ({ sampleAppOneDev with
          profiles := sampleAppOneDev.profiles ++
            [{ profile_type := ProfileType.Binary, location := "/bin/x",
               machine_name := none, notes := none,
               active := sampleAppOneDev.profiles.isEmpty }],
          updated_at := "t1" }, none)) ∧
    (add_profile sampleAppOneDev ProfileType.Dev "/y" none none "t1" =
      (sampleAppOneDev, some ProfErr.DuplicateProfileType)) :=
  ⟨(add_profile_spec sampleAppOneDev ProfileType.Binary "/bin/x" none none "t1").1 (by decide),
   (add_profile_spec sampleAppOneDev ProfileType.Dev "/y" none none "t1").2 (by decide)⟩

/-! ## C2: the legacy directory field on newly added records -/

/-- C2 (counterexample): a successful `add_app` with a supplied directory
stores a record whose legacy `directory` field is present (it equals the
supplied directory), contradicting the claim that the field is never
written for new records. -/
theorem add_app_writes_legacy_directory_cex :
    add_app [] (some "proj") (some "/p") none false none none none "t0"
        = Except.ok [("proj", new_app_record "proj" (some "/p") [] none "t0")] ∧
      (new_app_record "proj" (some "/p") [] none "t0").directory ≠ none :=
  ⟨rfl, by decide⟩

/-- C2 (amended): every successful `add_app` appends exactly one record,
and that record's legacy `directory` field equals the directory supplied
to the operation (the current directory under `--current-dir`, else the
`--dir` argument) — so the field is present exactly when a directory was
supplied, rather than always absent. -/
theorem add_app_stores_supplied_directory (store : Store) (name : Option String)
    (dir : Option String) (tags : Option String) (ucd : Bool)
    (cwdp cwdb mach : Option String) (now : String) (store' : Store)
    (app_name : String)
    (hname : resolve_app_name name ucd cwdb = Except.ok app_name)
    (h : add_app store name dir tags ucd cwdp cwdb mach now = Except.ok store') :
    store' = store ++
        [(app_name, new_app_record app_name (if ucd then cwdp else dir)
            (split_tags tags) mach now)] ∧
      (new_app_record app_name (if ucd then cwdp else dir)
          (split_tags tags) mach now).directory = (if ucd then cwdp else dir) := by
  refine ⟨?_, rfl⟩
  unfold add_app at h
  rw [hname] at h
  by_cases hdup : store.any (fun p => p.1 == app_name) = true
  · simp [hdup] at h
  · simp only [Bool.not_eq_true] at hdup
    simp only [hdup, Bool.false_eq_true, if_false, Except.ok.injEq] at h
    exact h.symm

/-- C2 (witness): the amended statement evaluated on a concrete successful
add with a supplied directory. -/
theorem add_app_stores_supplied_directory_witness :
    ([("proj", new_app_record "proj" (some "/p") [] none "t0")] : Store) = [] ++
        [("proj", new_app_record "proj" (some "/p") [] none "t0")] ∧
      (new_app_record "proj" (some "/p") [] none "t0").directory = some "/p" :=
  add_app_stores_supplied_directory [] (some "proj") (some "/p") none false
    none none none "t0" [("proj", new_app_record "proj" (some "/p") [] none "t0")]
    "proj" rfl rfl

/-! ## C3: name uniqueness across the store under add -/

/-- Case-insensitive uniqueness of the store's keys: no two keys agree
after lower-casing. -/
def case_insensitive_unique (store : Store) : Prop :=
  (store.map (fun p => string_to_lower p.1)).Nodup

instance (store : Store) : Decidable (case_insensitive_unique store) := by
  unfold case_insensitive_unique
  infer_instance

/-- C3 (counterexample): starting from a store whose keys are unique even
case-insensitively (just `"Foo"`), adding `"foo"` succeeds — the
duplicate check of `add_app` is the exact, case-sensitive `contains_key`
— and the resulting store has two keys that differ only by case, so the
case-insensitive uniqueness invariant is not preserved. -/
theorem add_app_case_insensitive_cex :
    case_insensitive_unique [("Foo", appFoo)] ∧
      add_app [("Foo", appFoo)] (some "foo") none none false none none none "t1"
        = Except.ok [("Foo", appFoo), ("foo", new_app_record "foo" none [] none "t1")] ∧
      ¬ case_insensitive_unique
          [("Foo", appFoo), ("foo", new_app_record "foo" none [] none "t1")] :=
  ⟨by decide, rfl, by decide⟩

/-- C3 (amended): `add_app` preserves the uniqueness the storage layer
actually checks: exact (case-sensitive) key uniqueness. If the keys are
pairwise distinct before a successful add, they are pairwise distinct
afterwards; case-insensitive uniqueness is not preserved (see the
counterexample). -/
theorem add_app_preserves_exact_key_uniqueness (store : Store)
    (name : Option String) (dir : Option String) (tags : Option String)
    (ucd : Bool) (cwdp cwdb mach : Option String) (now : String)
    (store' : Store) (hnd : (store.map Prod.fst).Nodup)
    (h : add_app store name dir tags ucd cwdp cwdb mach now = Except.ok store') :
    (store'.map Prod.fst).Nodup := by
  unfold add_app at h
  cases hr : resolve_app_name name ucd cwdb with
  | error e => rw [hr] at h; simp at h
  | ok app_name =>
      rw [hr] at h
      by_cases hdup : store.any (fun p => p.1 == app_name) = true
      · simp [hdup] at h
      · simp only [Bool.not_eq_true] at hdup
        simp only [hdup, Bool.false_eq_true, if_false, Except.ok.injEq] at h
        subst h
        rw [List.map_append]
        simp only [List.map_cons, List.map_nil]
        refine List.Nodup.append hnd (List.nodup_singleton _) ?_
        rw [List.disjoint_singleton]
        intro hmem
        rw [List.mem_map] at hmem
        obtain ⟨p, hp, hpe⟩ := hmem
        have := List.any_eq_false.mp hdup p hp
        simp at this
        exact this hpe

/-- C3 (witness): the amended statement evaluated on a concrete add. -/
theorem add_app_preserves_exact_key_uniqueness_witness :
    (([("Foo", appFoo), ("bar", new_app_record "bar" none [] none "t1")] : Store).map
        Prod.fst).Nodup :=
  add_app_preserves_exact_key_uniqueness [("Foo", appFoo)] (some "bar") none none
    false none none none "t1"
    [("Foo", appFoo), ("bar", new_app_record "bar" none [] none "t1")]
    (by decide) rfl

/-! ## C9: the load-time legacy-directory migration -/

/-- The migration is idempotent on every record: it only fires when the
profile list is empty, and firing makes the list non-empty. -/
theorem migrate_app_idem (a : App) : migrate_app (migrate_app a) = migrate_app a := by
  unfold migrate_app
  cases hd : a.directory with
  | none => simp [hd]
  | some d =>
      by_cases hp : a.profiles.isEmpty
      · simp [hd, hp]
      · simp [hd, hp]

/-- C9: for a stored application with an empty profile list and a present
legacy directory, the load-time migration yields for that key exactly one
profile — type `Dev`, located at the legacy directory, marked active,
with no machine name or notes — with the legacy `directory` field still
present and every other field unchanged; applying the migration to the
whole store a second time changes nothing. -/
theorem migrate_store_spec (store : Store) (key : String) (app : App) (d : String)
    (hmem : (key, app) ∈ store) (hprof : app.profiles = [])
    (hdir : app.directory = some d) :
    (key, { app with
        profiles := [{ profile_type := ProfileType.Dev, location := d,
                       machine_name := none, notes := none, active := true }] })
        ∈ migrate_store store ∧
      ({ app with
          profiles := [{ profile_type := ProfileType.Dev, location := d,
                         machine_name := none, notes := none, active := true }]
          : App }).directory = some d ∧
      migrate_store (migrate_store store) = migrate_store store := by
  refine ⟨?_, ?_, ?_⟩
  · have hma : migrate_app app =
        { app with
            profiles := [{ profile_type := ProfileType.Dev, location := d,
                           machine_name := none, notes := none, active := true }] } := by
      simp [migrate_app, hdir, hprof]
    have hm := List.mem_map_of_mem (fun p : String × App => (p.1, migrate_app p.2)) hmem
    rw [migrate_store]
    simpa [hma] using hm
  · simpa using hdir
  · unfold migrate_store
    rw [List.map_map]
    apply List.map_congr_left
    intro p hp
    simp [Function.comp, migrate_app_idem]

/-- C9 (witness): the migration statement evaluated on a concrete store
holding one legacy-only record. -/
theorem migrate_store_spec_witness :
    ("legacy", { appLegacy with
        profiles := [{ profile_type := ProfileType.Dev, location := "/old/dir",
                       machine_name := none, notes := none, active := true }] })
        ∈ migrate_store [("legacy", appLegacy)] ∧
      ({ appLegacy with
          profiles := [{ profile_type := ProfileType.Dev, location := "/old/dir",
                         machine_name := none, notes := none, active := true }]
          : App }).directory = some "/old/dir" ∧
      migrate_store (migrate_store [("legacy", appLegacy)])
        = migrate_store [("legacy", appLegacy)] :=
  migrate_store_spec [("legacy", appLegacy)] "legacy" appLegacy "/old/dir"
    (by decide) rfl rfl

/-! ## Profile-list invariants -/

/-- Number of profiles in a list whose active flag is set. -/
def active_count (l : List AppProfile) : Nat := l.countP (fun p => p.active)

/-- Per-type uniqueness: an application's profile types are pairwise
distinct. -/
def types_nodup (app : App) : Prop :=
  (app.profiles.map (fun p => p.profile_type)).Nodup

/-- The single-active-profile invariant: at most one stored profile of an
application is active. -/
def at_most_one_active (app : App) : Prop := active_count app.profiles ≤ 1

instance (app : App) : Decidable (types_nodup app) := by
  unfold types_nodup
  infer_instance

instance (app : App) : Decidable (at_most_one_active app) := by
  unfold at_most_one_active
  infer_instance

/-- With pairwise-distinct types, at most one profile matches a given type. -/
theorem countP_type_le_one (app : App) (t : ProfileType) (hnd : types_nodup app) :
    app.profiles.countP (fun p => p.profile_type == t) ≤ 1 := by
  have he : app.profiles.countP (fun p => p.profile_type == t)
      = (app.profiles.map (fun p => p.profile_type)).count t := by
    rw [List.count_eq_countP, List.countP_map]
    rfl
  rw [he]
  exact List.nodup_iff_count_le_one.mp hnd t

/-- Dropping the profiles of the active profile's type removes every
active profile, when at most one was active to begin with. -/
theorem active_count_filter_eq_zero (l : List AppProfile) (t : ProfileType)
    (hone : l.countP (fun p => p.active) ≤ 1)
    (p : AppProfile) (hp : p ∈ l) (ht : p.profile_type = t) (hact : p.active = true) :
    (l.filter (fun q => !(q.profile_type == t))).countP (fun q => q.active) = 0 := by
  have hsplit := List.countP_eq_countP_filter_add l (fun q => q.active)
    (fun q => q.profile_type == t)
  have hpos : 0 < (l.filter (fun q => q.profile_type == t)).countP (fun q => q.active) := by
    rw [List.countP_pos_iff]
    exact ⟨p, List.mem_filter.mpr ⟨hp, by simp [ht]⟩, hact⟩
  omega

/-- Reduction of `remove_profile` when some profile is dropped. -/
theorem remove_profile_eq (app : App) (t : ProfileType) (now : String)
    (h : (app.profiles.filter (fun q => !(q.profile_type == t))).length
      ≠ app.profiles.length) :
    remove_profile app t now =
      ({ app with
          profiles :=
            if !(app.profiles.filter (fun q => !(q.profile_type == t))).isEmpty &&
                !(app.profiles.filter (fun q => !(q.profile_type == t))).any
                  (fun p => p.active) then
              match app.profiles.filter (fun q => !(q.profile_type == t)) with
              | [] => []
              | p :: rest => { p with active := true } :: rest
            else app.profiles.filter (fun q => !(q.profile_type == t)),
          updated_at := now }, none) := by
  unfold remove_profile
  simp only [beq_eq_false_iff_ne.mpr h, Bool.false_eq_true, if_false]

/-- C7: for an application whose profile types are pairwise distinct and
which has at most one active profile, removing the type of the currently
active profile succeeds and yields the remaining profiles in stored order
with the first remaining one re-activated — exactly one active profile —
and removing the type of the only profile succeeds and leaves an empty
profile list with zero active profiles. -/
theorem remove_profile_active_spec (app : App) (t : ProfileType) (now : String)
    (hnd : types_nodup app) (hone : at_most_one_active app) :
    ((∃ p ∈ app.profiles, p.profile_type = t ∧ p.active = true) →
      (remove_profile app t now).2 = none ∧
      (remove_profile app t now).1.profiles =
        (match app.profiles.filter (fun q => !(q.profile_type == t)) with
         | [] => []
         | q :: rest => { q with active := true } :: rest) ∧
      (app.profiles.filter (fun q => !(q.profile_type == t)) ≠ [] →
        active_count (remove_profile app t now).1.profiles = 1)) ∧
    (∀ p, app.profiles = [p] → p.profile_type = t →
      (remove_profile app t now).2 = none ∧
      (remove_profile app t now).1.profiles = [] ∧
      active_count (remove_profile app t now).1.profiles = 0) := by
  constructor
  · rintro ⟨p, hp, ht, hact⟩
    have hne : (app.profiles.filter (fun q => !(q.profile_type == t))).length
        ≠ app.profiles.length := by
      intro he
      have := List.filter_length_eq_length.mp he p hp
      simp [ht] at this
    have hzero : (app.profiles.filter (fun q => !(q.profile_type == t))).countP
        (fun q => q.active) = 0 :=
      active_count_filter_eq_zero app.profiles t hone p hp ht hact
    have hany : (app.profiles.filter (fun q => !(q.profile_type == t))).any
        (fun q => q.active) = false := by
      rw [List.any_eq_false]
      intro q hq
      simpa using List.countP_eq_zero.mp hzero q hq
    rw [remove_profile_eq app t now hne]
    refine ⟨rfl, ?_, ?_⟩
    · cases hrm : app.profiles.filter (fun q => !(q.profile_type == t)) with
      | nil => simp [hrm]
      | cons q rest =>
          rw [hrm] at hany
          simp [hrm, hany]
    · intro hne2
      cases hrm : app.profiles.filter (fun q => !(q.profile_type == t)) with
      | nil => exact absurd hrm hne2
      | cons q rest =>
          rw [hrm] at hany hzero
          have hall := List.countP_eq_zero.mp hzero
          have hrest : rest.countP (fun q => q.active) = 0 :=
            List.countP_eq_zero.mpr fun a ha => hall a (List.mem_cons_of_mem _ ha)
          simp [hrm, hany, active_count, List.countP_cons, hrest]
  · intro p hps hpt
    have hfe : app.profiles.filter (fun q => !(q.profile_type == t)) = [] := by
      rw [hps]
      simp [hpt]
    have hne : (app.profiles.filter (fun q => !(q.profile_type == t))).length
        ≠ app.profiles.length := by
      rw [hfe, hps]
      simp
    rw [remove_profile_eq app t now hne]
    refine ⟨rfl, ?_, ?_⟩ <;> simp [hfe, active_count]

/-- C7 (witness): the statement evaluated on a concrete application with
two profiles (active `Dev`, inactive `Binary`) and on a concrete
application with a single `Dev` profile. -/
theorem remove_profile_active_spec_witness :
    ((∃ p ∈ sampleAppDevBinary.profiles, p.profile_type = ProfileType.Dev ∧ p.active = true) →
      (remove_profile sampleAppDevBinary ProfileType.Dev "t1").2 = none ∧
      (remove_profile sampleAppDevBinary ProfileType.Dev "t1").1.profiles =
        (match sampleAppDevBinary.profiles.filter
            (fun q => !(q.profile_type == ProfileType.Dev)) with
         | [] => []
         | q :: rest => { q with active := true } :: rest) ∧
      (sampleAppDevBinary.profiles.filter
          (fun q => !(q.profile_type == ProfileType.Dev)) ≠ [] →
        active_count (remove_profile sampleAppDevBinary ProfileType.Dev "t1").1.profiles
          = 1)) ∧
    (∀ p, sampleAppDevBinary.profiles = [p] → p.profile_type = ProfileType.Dev →
      (remove_profile sampleAppDevBinary ProfileType.Dev "t1").2 = none ∧
      (remove_profile sampleAppDevBinary ProfileType.Dev "t1").1.profiles = [] ∧
      active_count (remove_profile sampleAppDevBinary ProfileType.Dev "t1").1.profiles
        = 0) :=
  remove_profile_active_spec sampleAppDevBinary ProfileType.Dev "t1"
    (by decide) (by decide)

/-- Profile types are untouched by the activation rewrite. -/
theorem activate_types_eq (l : List AppProfile) (t : ProfileType) :
    (l.map (fun p =>
        if p.profile_type == t then { p with active := true }
        else { p with active := false })).map (fun p => p.profile_type)
      = l.map (fun p => p.profile_type) := by
  rw [List.map_map]
  apply List.map_congr_left
  intro p _
  by_cases h : p.profile_type = t <;> simp [h]

/-- C8: each of the three profile operations, when it succeeds, preserves
both per-type uniqueness and the at-most-one-active-profile invariant. -/
theorem profile_ops_preserve_invariants (app : App) (t : ProfileType)
    (loc : String) (mach notes : Option String) (now : String)
    (hnd : types_nodup app) (hone : at_most_one_active app) :
    ((add_profile app t loc mach notes now).2 = none →
      types_nodup (add_profile app t loc mach notes now).1 ∧
        at_most_one_active (add_profile app t loc mach notes now).1) ∧
    ((activate_profile app t now).2 = none →
      types_nodup (activate_profile app t now).1 ∧
        at_most_one_active (activate_profile app t now).1) ∧
    ((remove_profile app t now).2 = none →
      types_nodup (remove_profile app t now).1 ∧
        at_most_one_active (remove_profile app t now).1) := by
  refine ⟨?_, ?_, ?_⟩
  · -- add_profile
    intro hs
    by_cases hf : app.profiles.any (fun p => p.profile_type == t) = true
    · simp [add_profile, hf] at hs
    · simp only [Bool.not_eq_true] at hf
      have hnot : t ∉ app.profiles.map (fun p => p.profile_type) := by
        intro hmem
        rw [List.mem_map] at hmem
        obtain ⟨p, hp, hpe⟩ := hmem
        have := List.any_eq_false.mp hf p hp
        simp [hpe] at this
      constructor
      · unfold types_nodup
        simp only [add_profile, hf, Bool.false_eq_true, if_false, List.map_append]
        refine List.Nodup.append hnd ?_ ?_
        · simp
        · simp only [List.map_cons, List.map_nil]
          rw [List.disjoint_singleton]
          exact hnot
      · unfold at_most_one_active active_count at hone ⊢
        simp only [add_profile, hf, Bool.false_eq_true, if_false, List.countP_append]
        by_cases he : app.profiles.isEmpty = true
        · rw [List.isEmpty_iff] at he
          simp [he, List.countP_cons]
        · simp only [he, List.countP_cons, List.countP_nil]
          simp only [Bool.false_eq_true, if_false]
          omega
  · -- activate_profile
    intro hs
    by_cases hf : app.profiles.any (fun p => p.profile_type == t) = true
    · constructor
      · unfold types_nodup
        simp only [activate_profile, hf, if_true]
        rw [activate_types_eq]
        exact hnd
      · unfold at_most_one_active active_count
        simp only [activate_profile, hf, if_true]
        rw [List.countP_map]
        have he : app.profiles.countP
            ((fun p => p.active) ∘ (fun p =>
              if p.profile_type == t then { p with active := true }
              else { p with active := false }))
            = app.profiles.countP (fun p => p.profile_type == t) := by
          apply List.countP_congr
          intro p _
          by_cases h : p.profile_type = t <;> simp [h]
        rw [he]
        exact countP_type_le_one app t hnd
    · simp [activate_profile, hf] at hs
  · -- remove_profile
    intro hs
    by_cases hlen : ((app.profiles.filter
        (fun q => !(q.profile_type == t))).length == app.profiles.length) = true
    · simp [remove_profile, hlen] at hs
    · have hne : (app.profiles.filter (fun q => !(q.profile_type == t))).length
          ≠ app.profiles.length := by
        simpa using hlen
      rw [remove_profile_eq app t now hne]
      have hsub : List.Sublist
          (app.profiles.filter (fun q => !(q.profile_type == t))) app.profiles :=
        List.filter_sublist _
      have hnd' : (app.profiles.map (fun p => p.profile_type)).Nodup := hnd
      by_cases hc : (!(app.profiles.filter (fun q => !(q.profile_type == t))).isEmpty &&
          !(app.profiles.filter (fun q => !(q.profile_type == t))).any
            (fun p => p.active)) = true
      · cases hrm : app.profiles.filter (fun q => !(q.profile_type == t)) with
        | nil =>
            rw [hrm] at hc
            simp at hc
        | cons q rest =>
            rw [hrm] at hc hsub
            constructor
            · unfold types_nodup
              simp only [hc, if_true, hrm, List.map_cons]
              have : (q.profile_type :: rest.map (fun p => p.profile_type)).Nodup := by
                have hm := hsub.map (fun p => p.profile_type)
                simpa using hm.nodup hnd'
              simpa using this
            · unfold at_most_one_active active_count
              simp only [hc, if_true, hrm]
              rw [List.countP_cons]
              have hany : (List.cons q rest).any (fun p => p.active) = false := by
                rcases Bool.and_eq_true_iff.mp hc with ⟨_, h2⟩
                simpa using h2
              have hall := List.any_eq_false.mp hany
              have hrest : rest.countP (fun p => p.active) = 0 :=
                List.countP_eq_zero.mpr fun a ha =>
                  by simpa using hall a (List.mem_cons_of_mem _ ha)
              simp [hrest]
      · simp only [Bool.not_eq_true] at hc
        constructor
        · unfold types_nodup
          simp only [hc, Bool.false_eq_true, if_false]
          exact ((hsub.map (fun p => p.profile_type)).nodup hnd')
        · unfold at_most_one_active active_count at hone ⊢
          simp only [hc, Bool.false_eq_true, if_false]
          exact le_trans (hsub.countP_le _) hone

/-- C8 (witness): invariant preservation evaluated on a concrete
application with an active `Dev` and inactive `Binary` profile, for the
type `Installed` (added), with the other operations targeting types as
applicable. -/
theorem profile_ops_preserve_invariants_witness :
    ((add_profile sampleAppDevBinary ProfileType.Installed "/opt/x" none none "t1").2
        = none →
      types_nodup (add_profile sampleAppDevBinary ProfileType.Installed
          "/opt/x" none none "t1").1 ∧
        at_most_one_active (add_profile sampleAppDevBinary ProfileType.Installed
          "/opt/x" none none "t1").1) ∧
    ((activate_profile sampleAppDevBinary ProfileType.Installed "t1").2 = none →
      types_nodup (activate_profile sampleAppDevBinary ProfileType.Installed "t1").1 ∧
        at_most_one_active
          (activate_profile sampleAppDevBinary ProfileType.Installed "t1").1) ∧
    ((remove_profile sampleAppDevBinary ProfileType.Installed "t1").2 = none →
      types_nodup (remove_profile sampleAppDevBinary ProfileType.Installed "t1").1 ∧
        at_most_one_active
          (remove_profile sampleAppDevBinary ProfileType.Installed "t1").1) :=
  profile_ops_preserve_invariants sampleAppDevBinary ProfileType.Installed
    "/opt/x" none none "t1" (by decide) (by decide)

/-! ## C5: the exact tier of the matcher -/

/-- A concrete application named `My-Project` with no profiles. -/
def appMyProject : App :=
  { name := "My-Project", profiles := [], directory := none, tags := [],
    github_repo := none, created_at := "t0", updated_at := "t0" }

/-- The matcher result is an application whose lower-cased name equals the
lower-cased search term (and in particular the result is not `none`). -/
def exact_hit (term : String) : Option App → Prop
  | some a => string_to_lower a.name = string_to_lower term
  | none => False

/-- C5: whenever some stored key lower-cases to the lower-cased search
term, `find_app_by_name` returns an application whose name lower-cases to
the search term — the exact tier fires before the normalized and
substring tiers, and never hands back an application whose lower-cased
name differs. (The hypothesis that each record's `name` equals its key is
the store's construction invariant: `add_app` always inserts under
`app.name`.) -/
theorem find_app_by_name_exact_tier (store : Store) (term : String)
    (hwf : ∀ p ∈ store, p.2.name = p.1)
    (hex : ∃ p ∈ store, string_to_lower p.1 = string_to_lower term) :
    exact_hit term (find_app_by_name store term) := by
  obtain ⟨p0, hp0, he⟩ := hex
  have hsome : (store.find? (fun p => tier1 (string_to_lower term) p.1)).isSome := by
    rw [List.find?_isSome]
    exact ⟨p0, hp0, by simp [tier1, he]⟩
  obtain ⟨q, hq⟩ := Option.isSome_iff_exists.mp hsome
  have hmem := List.mem_of_find?_eq_some hq
  have hpred := List.find?_some hq
  simp only [find_app_by_name, hq]
  show string_to_lower q.2.name = string_to_lower term
  rw [hwf q hmem]
  simpa [tier1] using hpred

/-- C5 (witness): the exact-tier statement evaluated on a concrete store
and a search term differing from the stored key only by case. -/
theorem find_app_by_name_exact_tier_witness :
    exact_hit "my-project"
      (find_app_by_name [("My-Project", appMyProject)] "my-project") :=
  find_app_by_name_exact_tier [("My-Project", appMyProject)] "my-project"
    (by decide) (by decide)

/-! ## C10: agreement of the two matchers -/

/-- Looking a member's key back up in a store with pairwise-distinct keys
returns exactly that member's value. -/
theorem hashmap_get_mem (store : Store) (pr : String × App)
    (hnd : (store.map Prod.fst).Nodup) (hmem : pr ∈ store) :
    hashmap_get store pr.1 = some pr.2 := by
  induction store with
  | nil => cases hmem
  | cons q rest ih =>
      rw [List.map_cons, List.nodup_cons] at hnd
      unfold hashmap_get
      simp only [List.find?]
      by_cases hq : (q.1 == pr.1) = true
      · rcases List.mem_cons.mp hmem with rfl | hmem'
        · simp [hq]
        · exfalso
          apply hnd.1
          rw [beq_iff_eq] at hq
          rw [hq]
          exact List.mem_map_of_mem Prod.fst hmem'
      · rcases List.mem_cons.mp hmem with rfl | hmem'
        · simp at hq
        · simp only [Bool.not_eq_true] at hq
          rw [hq]
          exact ih hnd.2 hmem'

/-- C10: on a store with pairwise-distinct keys (the hash-map invariant),
the mutable matcher — which scans the collected key list tier by tier and
then fetches the winning key with `get_mut` — returns exactly what the
read-only matcher returns, on every search term; in particular both
return nothing on the same inputs. -/
theorem find_app_by_name_mut_eq_find (store : Store) (term : String)
    (hnd : (store.map Prod.fst).Nodup) :
    find_app_by_name_mut store term = find_app_by_name store term := by
  simp only [find_app_by_name_mut, find_app_by_name, List.find?_map, Function.comp_def]
  cases h1 : store.find? (fun p => tier1 (string_to_lower term) p.1) with
  | some p =>
      simp only [h1, Option.map_some']
      exact hashmap_get_mem store p hnd (List.mem_of_find?_eq_some h1)
  | none =>
      simp only [h1, Option.map_none']
      cases h2 : store.find?
          (fun p => tier2 (normalize_name (string_to_lower term)) p.1) with
      | some p =>
          simp only [h2, Option.map_some']
          exact hashmap_get_mem store p hnd (List.mem_of_find?_eq_some h2)
      | none =>
          simp only [h2, Option.map_none']
          cases h3 : store.find?
              (fun p => tier3 (normalize_name (string_to_lower term)) p.1) with
          | some p =>
              simp only [h3, Option.map_some']
              exact hashmap_get_mem store p hnd (List.mem_of_find?_eq_some h3)
          | none => simp only [h3, Option.map_none']

/-- C10 (witness): agreement of the two matchers evaluated on a concrete
store and a normalized-tier search term. -/
theorem find_app_by_name_mut_eq_find_witness :
    find_app_by_name_mut [("My-Project", appMyProject)] "myproject"
      = find_app_by_name [("My-Project", appMyProject)] "myproject" :=
  find_app_by_name_mut_eq_find [("My-Project", appMyProject)] "myproject" (by decide)

end AppsHelper
